import Mathlib

/-!
Verification of the GoTryCatch library (`gotrycatch.go`) against its
natural-language specification.

The embedding models Go runtime values with a type tag, Go's type
assertion `x.(T)` (exact dynamic-type equality for a concrete target
type, method-set satisfaction for an interface target type), the
`TryBlock` record, and the operations `Try`, `Catch`, `CatchWithReturn`,
`CatchAny`, `Finally` and `Throw`.  Side effects of handlers and cleanup
functions are modelled as event traces; a panic escaping a call is an
explicit `Option GoValue` ordered after the events of that call.
-/

namespace GoTryCatch

/-- Concrete (non-interface) Go runtime types occurring in the repository:
the built-ins `string` and `int`, the standard library pointer type
returned by a failed `strconv.Atoi`, and the four payload record types of
the bundled `errors` package. -/
inductive ConcreteType
  | stringT
  | intT
  | numErrorT
  | validationErrorT
  | databaseErrorT
  | networkErrorT
  | businessLogicErrorT
  deriving DecidableEq

/-- Interface types used as catch targets in the repository. -/
inductive InterfaceType
  | errorI
  deriving DecidableEq

/-- Method-set satisfaction, read off the source: every payload record of
the `errors` package has a value-receiver `Error() string` method and the
`strconv` error type implements `error`; `string` and `int` do not. -/
def implementsIface : ConcreteType → InterfaceType → Bool
  | ConcreteType.stringT, InterfaceType.errorI => false
  | ConcreteType.intT, InterfaceType.errorI => false
  | ConcreteType.numErrorT, InterfaceType.errorI => true
  | ConcreteType.validationErrorT, InterfaceType.errorI => true
  | ConcreteType.databaseErrorT, InterfaceType.errorI => true
  | ConcreteType.networkErrorT, InterfaceType.errorI => true
  | ConcreteType.businessLogicErrorT, InterfaceType.errorI => true

/-- A non-nil Go value: a concrete runtime type tag plus an abstract
content; two values are the same Go value exactly when both components
agree. -/
structure GoValue where
  rtype : ConcreteType
  content : Nat
  deriving DecidableEq

/-- A type usable as the target `T` of a Go type assertion: either a
concrete type or an interface type. -/
inductive GoAssertType
  | concrete (t : ConcreteType)
  | iface (i : InterfaceType)
  deriving DecidableEq

/-- Go's type assertion `v.(T)`: succeeds for a concrete `T` exactly when
the dynamic type of `v` equals `T`, and for an interface `T` exactly when
the dynamic type of `v` implements `T`. -/
def typeAssert (v : GoValue) : GoAssertType → Bool
  | GoAssertType.concrete t => v.rtype = t
  | GoAssertType.iface i => implementsIface v.rtype i

/-- An observable side effect: either an ordinary effect of a handler or
cleanup function (identified by a number), or a raise escaping a call. -/
inductive Event
  | mark (n : Nat)
  | raiseEv (v : GoValue)
  deriving DecidableEq

/-- Result of running a handler body: the events it emits, the panic it
raises instead of returning (if any), and the `interface{}` value it
returns (`none` models returning nil; only `CatchWithReturn` uses it). -/
structure HandlerResult where
  events : List Event
  raised : Option GoValue
  ret : Option GoValue
  deriving DecidableEq

/-- The `TryBlock` record of the source: `err` holds the captured panic
value (`none` = the nil interface) and `handled` records whether a
handler has consumed it. -/
structure TryBlock where
  err : Option GoValue
  handled : Bool
  deriving DecidableEq

/-- A protected computation: the events it emits and the panic it raises
(if any).  `Throw`/`panic` inside the computation shows up as `raised`. -/
structure Comp where
  events : List Event
  raised : Option GoValue
  deriving DecidableEq

/-- `Throw(err)` from the source: a computation that panics with the
given value, emitting no events of its own. -/
def Throw (v : GoValue) : Comp :=
  { events := [], raised := some v }

/-- `Try(fn)` from the source: runs `fn`, recovers any panic and stores it
in a fresh block whose `handled` flag starts false. -/
def Try (fn : Comp) : TryBlock :=
  { err := fn.raised, handled := false }

/-- Outcome of a `Catch`/`CatchAny` call: the payloads passed to the
handler (in call order), the events emitted during the call, the panic
escaping the call (`none` = the call returns normally), and the state of
the block as the caller sees it after the call. -/
structure CatchOutcome where
  invoked : List GoValue
  events : List Event
  escape : Option GoValue
  block : Option TryBlock
  deriving DecidableEq

/-- `Catch[T](tb, handler)` from the source: a nil block yields a fresh
empty block; on an unhandled non-nil `err` that passes the type assertion
the handler runs, and `handled` is set only after it returns normally. -/
def Catch (T : GoAssertType) (tb : Option TryBlock) (handler : GoValue → HandlerResult) :
    CatchOutcome :=
  match tb with
  | none => { invoked := [], events := [], escape := none,
              block := some { err := none, handled := false } }
  | some b =>
    match b.err, b.handled with
    | some v, false =>
      if typeAssert v T then
        let r := handler v
        match r.raised with
        | some w => { invoked := [v], events := r.events, escape := some w, block := some b }
        | none => { invoked := [v], events := r.events, escape := none,
                    block := some { err := b.err, handled := true } }
      else { invoked := [], events := [], escape := none, block := some b }
    | _, _ => { invoked := [], events := [], escape := none, block := some b }

/-- Outcome of a `CatchWithReturn` call: as `CatchOutcome`, plus the
`interface{}` result returned to the caller (`none` models nil). -/
structure CatchRetOutcome where
  result : Option GoValue
  invoked : List GoValue
  events : List Event
  escape : Option GoValue
  block : Option TryBlock
  deriving DecidableEq

/-- `CatchWithReturn[T](tb, handler)` from the source: as `Catch`, but on
a match the handler's return value is passed through; every other path
returns nil. -/
def CatchWithReturn (T : GoAssertType) (tb : Option TryBlock)
    (handler : GoValue → HandlerResult) : CatchRetOutcome :=
  match tb with
  | none => { result := none, invoked := [], events := [], escape := none,
              block := some { err := none, handled := false } }
  | some b =>
    match b.err, b.handled with
    | some v, false =>
      if typeAssert v T then
        let r := handler v
        match r.raised with
        | some w => { result := none, invoked := [v], events := r.events, escape := some w,
                      block := some b }
        | none => { result := r.ret, invoked := [v], events := r.events, escape := none,
                    block := some { err := b.err, handled := true } }
      else { result := none, invoked := [], events := [], escape := none, block := some b }
    | _, _ => { result := none, invoked := [], events := [], escape := none, block := some b }

/-- `(tb).CatchAny(handler)` from the source: as `Catch` but with no type
guard — any unhandled non-nil `err` is passed to the handler. -/
def CatchAny (tb : Option TryBlock) (handler : GoValue → HandlerResult) : CatchOutcome :=
  match tb with
  | none => { invoked := [], events := [], escape := none,
              block := some { err := none, handled := false } }
  | some b =>
    match b.err, b.handled with
    | some v, false =>
      let r := handler v
      match r.raised with
      | some w => { invoked := [v], events := r.events, escape := some w, block := some b }
      | none => { invoked := [v], events := r.events, escape := none,
                  block := some { err := b.err, handled := true } }
    | _, _ => { invoked := [], events := [], escape := none, block := some b }

/-- Outcome of a `Finally` call: events emitted (the cleanup runs via
`defer`, so its events precede any escape) and the re-raised panic. -/
structure FinallyOutcome where
  events : List Event
  escape : Option GoValue
  deriving DecidableEq

/-- `(tb).Finally(fn)` from the source: on a nil receiver the cleanup
runs and nothing is re-raised; otherwise the cleanup is deferred and the
still-unhandled `err`, if any, is re-panicked — the deferred cleanup
completes during that unwind, before the panic leaves the call. -/
def Finally (tb : Option TryBlock) (cleanup : List Event) : FinallyOutcome :=
  match tb with
  | none => { events := cleanup, escape := none }
  | some b =>
    match b.err, b.handled with
    | some v, false => { events := cleanup, escape := some v }
    | _, _ => { events := cleanup, escape := none }

/-- The full observable trace of a `Finally` call: its events followed by
the re-raise, if one escapes. -/
def FinallyOutcome.trace (f : FinallyOutcome) : List Event :=
  f.events ++ (match f.escape with | some v => [Event.raiseEv v] | none => [])

/-- A computation that replays an observed trace and escape, used to model
code whose panic an enclosing `Try` then intercepts. -/
def resumeComp (tr : List Event) (esc : Option GoValue) : Comp :=
  { events := tr, raised := esc }

/-- One stage of a dispatch chain. -/
inductive DispatchOp
  | catchOp (T : GoAssertType) (h : GoValue → HandlerResult)
  | catchRetOp (T : GoAssertType) (h : GoValue → HandlerResult)
  | catchAnyOp (h : GoValue → HandlerResult)

/-- Apply one stage to a block, forgetting the `CatchWithReturn` result. -/
def applyOp : DispatchOp → Option TryBlock → CatchOutcome
  | DispatchOp.catchOp T h, tb => Catch T tb h
  | DispatchOp.catchRetOp T h, tb =>
    let o := CatchWithReturn T tb h
    { invoked := o.invoked, events := o.events, escape := o.escape, block := o.block }
  | DispatchOp.catchAnyOp h, tb => CatchAny tb h

/-- Outcome of running a chain of dispatch stages: handler invocations
tagged with the index of the stage that made them, the events emitted,
the panic escaping the chain (aborting the stages after it), and the
final state of the block. -/
structure ChainOut where
  invoked : List (Nat × GoValue)
  events : List Event
  escape : Option GoValue
  block : Option TryBlock
  deriving DecidableEq

/-- Run the stages in order starting at index `i`; a panic escaping one
stage aborts the rest of the chain, exactly as straight-line Go code
would never reach the later calls. -/
def runChainFrom (i : Nat) : List DispatchOp → Option TryBlock → ChainOut
  | [], tb => { invoked := [], events := [], escape := none, block := tb }
  | op :: rest, tb =>
    let o := applyOp op tb
    match o.escape with
    | some w =>
      { invoked := o.invoked.map (fun v => (i, v)), events := o.events,
        escape := some w, block := o.block }
    | none =>
      let c := runChainFrom (i + 1) rest o.block
      { invoked := o.invoked.map (fun v => (i, v)) ++ c.invoked,
        events := o.events ++ c.events, escape := c.escape, block := c.block }

/-- Run a dispatch chain from its first stage. -/
def runChain (ops : List DispatchOp) (tb : Option TryBlock) : ChainOut :=
  runChainFrom 0 ops tb

/-- Index of the first type in the list that the value's type assertion
accepts; equals the list's length when none does. -/
def firstMatchIx (v : GoValue) : List GoAssertType → Nat
  | [] => 0
  | T :: Ts => if typeAssert v T then 0 else firstMatchIx v Ts + 1

/-- The typed stages of a chain guarding the given types, all using one
handler body. -/
def typedOps (h : GoValue → HandlerResult) (Ts : List GoAssertType) : List DispatchOp :=
  Ts.map (fun T => DispatchOp.catchOp T h)

/-- A handler that emits nothing, returns normally and returns nil. -/
def nilRetHandler : GoValue → HandlerResult :=
  fun _ => { events := [], raised := none, ret := none }

/-- A handler that returns normally with the event and value supplied. -/
def pureHandler (n : Nat) (r : Option GoValue) : GoValue → HandlerResult :=
  fun _ => { events := [Event.mark n], raised := none, ret := r }

/-- A handler that emits one event and then panics with the given value. -/
def raisingHandler (n : Nat) (w : GoValue) : GoValue → HandlerResult :=
  fun _ => { events := [Event.mark n], raised := some w, ret := none }

/-- Sample value: a `ValidationError` payload. -/
def vVal : GoValue := { rtype := ConcreteType.validationErrorT, content := 1001 }

/-- Sample value: a `string` payload. -/
def vStr : GoValue := { rtype := ConcreteType.stringT, content := 7 }

/-- Sample value: the `error`-typed payload of a failed `strconv.Atoi`. -/
def vNum : GoValue := { rtype := ConcreteType.numErrorT, content := 3 }

/-- Whether a stage's guard accepts the payload: the type assertion for a
typed stage, always for a catch-all stage. -/
def opMatches (v : GoValue) : DispatchOp → Bool
  | DispatchOp.catchOp T _ => typeAssert v T
  | DispatchOp.catchRetOp T _ => typeAssert v T
  | DispatchOp.catchAnyOp _ => true

/-- The handler body carried by a stage. -/
def opHandler : DispatchOp → (GoValue → HandlerResult)
  | DispatchOp.catchOp _ h => h
  | DispatchOp.catchRetOp _ h => h
  | DispatchOp.catchAnyOp h => h

/- ### Case lemmas for the single dispatch operations -/

theorem Catch_handled (T : GoAssertType) (h : GoValue → HandlerResult) (b : TryBlock)
    (hb : b.handled = true) :
    Catch T (some b) h = { invoked := [], events := [], escape := none, block := some b } := by
  obtain ⟨e, hd⟩ := b
  cases hb
  cases e <;> rfl

theorem Catch_clean (T : GoAssertType) (h : GoValue → HandlerResult) (b : TryBlock)
    (hb : b.err = none) :
    Catch T (some b) h = { invoked := [], events := [], escape := none, block := some b } := by
  obtain ⟨e, hd⟩ := b
  cases hb
  cases hd <;> rfl

theorem Catch_nomatch (T : GoAssertType) (h : GoValue → HandlerResult) (v : GoValue)
    (ht : typeAssert v T = false) :
    Catch T (some { err := some v, handled := false }) h
      = { invoked := [], events := [], escape := none,
          block := some { err := some v, handled := false } } := by
  simp [Catch, ht]

theorem Catch_match_ret (T : GoAssertType) (h : GoValue → HandlerResult) (v : GoValue)
    (ht : typeAssert v T = true) (hr : (h v).raised = none) :
    Catch T (some { err := some v, handled := false }) h
      = { invoked := [v], events := (h v).events, escape := none,
          block := some { err := some v, handled := true } } := by
  simp [Catch, ht, hr]

theorem Catch_match_raise (T : GoAssertType) (h : GoValue → HandlerResult) (v w : GoValue)
    (ht : typeAssert v T = true) (hr : (h v).raised = some w) :
    Catch T (some { err := some v, handled := false }) h
      = { invoked := [v], events := (h v).events, escape := some w,
          block := some { err := some v, handled := false } } := by
  simp [Catch, ht, hr]

theorem CatchWithReturn_handled (T : GoAssertType) (h : GoValue → HandlerResult) (b : TryBlock)
    (hb : b.handled = true) :
    CatchWithReturn T (some b) h
      = { result := none, invoked := [], events := [], escape := none, block := some b } := by
  obtain ⟨e, hd⟩ := b
  cases hb
  cases e <;> rfl

theorem CatchWithReturn_clean (T : GoAssertType) (h : GoValue → HandlerResult) (b : TryBlock)
    (hb : b.err = none) :
    CatchWithReturn T (some b) h
      = { result := none, invoked := [], events := [], escape := none, block := some b } := by
  obtain ⟨e, hd⟩ := b
  cases hb
  cases hd <;> rfl

theorem CatchWithReturn_nomatch (T : GoAssertType) (h : GoValue → HandlerResult) (v : GoValue)
    (ht : typeAssert v T = false) :
    CatchWithReturn T (some { err := some v, handled := false }) h
      = { result := none, invoked := [], events := [], escape := none,
          block := some { err := some v, handled := false } } := by
  simp [CatchWithReturn, ht]

theorem CatchWithReturn_match_ret (T : GoAssertType) (h : GoValue → HandlerResult) (v : GoValue)
    (ht : typeAssert v T = true) (hr : (h v).raised = none) :
    CatchWithReturn T (some { err := some v, handled := false }) h
      = { result := (h v).ret, invoked := [v], events := (h v).events, escape := none,
          block := some { err := some v, handled := true } } := by
  simp [CatchWithReturn, ht, hr]

theorem CatchWithReturn_match_raise (T : GoAssertType) (h : GoValue → HandlerResult)
    (v w : GoValue) (ht : typeAssert v T = true) (hr : (h v).raised = some w) :
    CatchWithReturn T (some { err := some v, handled := false }) h
      = { result := none, invoked := [v], events := (h v).events, escape := some w,
          block := some { err := some v, handled := false } } := by
  simp [CatchWithReturn, ht, hr]

theorem CatchAny_handled (h : GoValue → HandlerResult) (b : TryBlock)
    (hb : b.handled = true) :
    CatchAny (some b) h = { invoked := [], events := [], escape := none, block := some b } := by
  obtain ⟨e, hd⟩ := b
  cases hb
  cases e <;> rfl

theorem CatchAny_clean (h : GoValue → HandlerResult) (b : TryBlock)
    (hb : b.err = none) :
    CatchAny (some b) h = { invoked := [], events := [], escape := none, block := some b } := by
  obtain ⟨e, hd⟩ := b
  cases hb
  cases hd <;> rfl

theorem CatchAny_match_ret (h : GoValue → HandlerResult) (v : GoValue)
    (hr : (h v).raised = none) :
    CatchAny (some { err := some v, handled := false }) h
      = { invoked := [v], events := (h v).events, escape := none,
          block := some { err := some v, handled := true } } := by
  simp [CatchAny, hr]

theorem CatchAny_match_raise (h : GoValue → HandlerResult) (v w : GoValue)
    (hr : (h v).raised = some w) :
    CatchAny (some { err := some v, handled := false }) h
      = { invoked := [v], events := (h v).events, escape := some w,
          block := some { err := some v, handled := false } } := by
  simp [CatchAny, hr]

/- ### Case lemmas for a single chain stage -/

theorem applyOp_pass (op : DispatchOp) (b : TryBlock)
    (hb : b.err = none ∨ b.handled = true) :
    applyOp op (some b) = { invoked := [], events := [], escape := none, block := some b } := by
  cases op with
  | catchOp T h =>
    cases hb with
    | inl hc => simp [applyOp, Catch_clean T h b hc]
    | inr hh => simp [applyOp, Catch_handled T h b hh]
  | catchRetOp T h =>
    cases hb with
    | inl hc => simp [applyOp, CatchWithReturn_clean T h b hc]
    | inr hh => simp [applyOp, CatchWithReturn_handled T h b hh]
  | catchAnyOp h =>
    cases hb with
    | inl hc => simp [applyOp, CatchAny_clean h b hc]
    | inr hh => simp [applyOp, CatchAny_handled h b hh]

theorem applyOp_nomatch (op : DispatchOp) (v : GoValue)
    (hm : opMatches v op = false) :
    applyOp op (some { err := some v, handled := false })
      = { invoked := [], events := [], escape := none,
          block := some { err := some v, handled := false } } := by
  cases op with
  | catchOp T h => simp only [opMatches] at hm; simp [applyOp, Catch_nomatch T h v hm]
  | catchRetOp T h =>
    simp only [opMatches] at hm
    simp [applyOp, CatchWithReturn_nomatch T h v hm]
  | catchAnyOp h => simp [opMatches] at hm

theorem applyOp_match_ret (op : DispatchOp) (v : GoValue)
    (hm : opMatches v op = true) (hr : (opHandler op v).raised = none) :
    applyOp op (some { err := some v, handled := false })
      = { invoked := [v], events := (opHandler op v).events, escape := none,
          block := some { err := some v, handled := true } } := by
  cases op with
  | catchOp T h =>
    simp only [opMatches] at hm
    simp only [opHandler] at hr
    simp [applyOp, Catch_match_ret T h v hm hr, opHandler]
  | catchRetOp T h =>
    simp only [opMatches] at hm
    simp only [opHandler] at hr
    simp [applyOp, CatchWithReturn_match_ret T h v hm hr, opHandler]
  | catchAnyOp h =>
    simp only [opHandler] at hr
    simp [applyOp, CatchAny_match_ret h v hr, opHandler]

theorem applyOp_match_raise (op : DispatchOp) (v w : GoValue)
    (hm : opMatches v op = true) (hr : (opHandler op v).raised = some w) :
    applyOp op (some { err := some v, handled := false })
      = { invoked := [v], events := (opHandler op v).events, escape := some w,
          block := some { err := some v, handled := false } } := by
  cases op with
  | catchOp T h =>
    simp only [opMatches] at hm
    simp only [opHandler] at hr
    simp [applyOp, Catch_match_raise T h v w hm hr, opHandler]
  | catchRetOp T h =>
    simp only [opMatches] at hm
    simp only [opHandler] at hr
    simp [applyOp, CatchWithReturn_match_raise T h v w hm hr, opHandler]
  | catchAnyOp h =>
    simp only [opHandler] at hr
    simp [applyOp, CatchAny_match_raise h v w hr, opHandler]

/- ### Chain lemmas -/

theorem runChainFrom_pass (ops : List DispatchOp) (i : Nat) (b : TryBlock)
    (hb : b.err = none ∨ b.handled = true) :
    runChainFrom i ops (some b)
      = { invoked := [], events := [], escape := none, block := some b } := by
  induction ops generalizing i with
  | nil => rfl
  | cons op rest ih =>
    simp [runChainFrom, applyOp_pass op b hb, ih (i + 1)]

theorem runChainFrom_unhandled (ops : List DispatchOp) (i : Nat) (v : GoValue) :
    (∃ j, ((runChainFrom i ops (some { err := some v, handled := false })).invoked = [(j, v)]
        ∧ ((runChainFrom i ops (some { err := some v, handled := false })).block
              = some { err := some v, handled := false }
           ∨ (runChainFrom i ops (some { err := some v, handled := false })).block
              = some { err := some v, handled := true })))
    ∨ ((runChainFrom i ops (some { err := some v, handled := false })).invoked = []
        ∧ (runChainFrom i ops (some { err := some v, handled := false })).escape = none
        ∧ (runChainFrom i ops (some { err := some v, handled := false })).block
            = some { err := some v, handled := false }
        ∧ ∀ op ∈ ops, opMatches v op = false) := by
  induction ops generalizing i with
  | nil => right; simp [runChainFrom]
  | cons op rest ih =>
    by_cases hm : opMatches v op = true
    · cases hr : (opHandler op v).raised with
      | none =>
        left
        refine ⟨i, ?_⟩
        have hpass := runChainFrom_pass rest (i + 1)
          { err := some v, handled := true } (Or.inr rfl)
        simp [runChainFrom, applyOp_match_ret op v hm hr, hpass]
      | some w =>
        left
        refine ⟨i, ?_⟩
        simp [runChainFrom, applyOp_match_raise op v w hm hr]
    · have hm2 : opMatches v op = false := by
        cases hmv : opMatches v op
        · rfl
        · exact absurd hmv hm
      have hstep : runChainFrom i (op :: rest) (some { err := some v, handled := false })
          = { invoked := (runChainFrom (i + 1) rest
                (some { err := some v, handled := false })).invoked,
              events := (runChainFrom (i + 1) rest
                (some { err := some v, handled := false })).events,
              escape := (runChainFrom (i + 1) rest
                (some { err := some v, handled := false })).escape,
              block := (runChainFrom (i + 1) rest
                (some { err := some v, handled := false })).block } := by
        simp [runChainFrom, applyOp_nomatch op v hm2]
      rcases ih (i + 1) with ⟨j, hj, hb⟩ | ⟨h1, h2, h3, h4⟩
      · left
        exact ⟨j, by rw [hstep]; exact hj, by rw [hstep]; exact hb⟩
      · right
        refine ⟨by rw [hstep]; exact h1, by rw [hstep]; exact h2, by rw [hstep]; exact h3, ?_⟩
        intro op2 hop2
        rcases List.mem_cons.mp hop2 with rfl | hop2
        · exact hm2
        · exact h4 op2 hop2

theorem firstMatchIx_le (v : GoValue) (Ts : List GoAssertType) :
    firstMatchIx v Ts ≤ Ts.length := by
  induction Ts with
  | nil => simp [firstMatchIx]
  | cons T Ts ih =>
    by_cases ht : typeAssert v T = true
    · simp [firstMatchIx, ht]
    · simp only [firstMatchIx, if_neg ht, List.length_cons]
      omega

theorem firstMatchIx_lt_spec (v : GoValue) (Ts : List GoAssertType)
    (hlt : firstMatchIx v Ts < Ts.length) :
    ∃ l T r, Ts = l ++ T :: r ∧ l.length = firstMatchIx v Ts
      ∧ typeAssert v T = true ∧ ∀ U ∈ l, typeAssert v U = false := by
  induction Ts with
  | nil => simp at hlt
  | cons T Ts ih =>
    by_cases ht : typeAssert v T = true
    · exact ⟨[], T, Ts, by simp, by simp [firstMatchIx, ht], ht, by simp⟩
    · have ht2 : typeAssert v T = false := by
        cases htv : typeAssert v T
        · rfl
        · exact absurd htv ht
      have hlt2 : firstMatchIx v Ts < Ts.length := by
        simp only [firstMatchIx, if_neg ht, List.length_cons] at hlt
        omega
      obtain ⟨l, U, r, hsplit, hlen, hmatch, hall⟩ := ih hlt2
      refine ⟨T :: l, U, r, by simp [hsplit], ?_, hmatch, ?_⟩
      · simp [firstMatchIx, ht2, hlen]
      · intro W hW
        rcases List.mem_cons.mp hW with rfl | hW
        · exact ht2
        · exact hall W hW

theorem firstMatchIx_eq_length (v : GoValue) (Ts : List GoAssertType) :
    firstMatchIx v Ts = Ts.length ↔ ∀ U ∈ Ts, typeAssert v U = false := by
  induction Ts with
  | nil => simp [firstMatchIx]
  | cons T Ts ih =>
    by_cases ht : typeAssert v T = true
    · simp [firstMatchIx, ht]
    · have ht2 : typeAssert v T = false := by
        cases htv : typeAssert v T
        · rfl
        · exact absurd htv ht
      simp only [firstMatchIx, if_neg ht, List.length_cons, Nat.add_right_cancel_iff, ih,
        List.mem_cons]
      constructor
      · intro hall U hU
        rcases hU with rfl | hU
        · exact ht2
        · exact hall U hU
      · intro hall U hU
        exact hall U (Or.inr hU)

theorem typedChain_run (Ts : List GoAssertType) (i : Nat) (v : GoValue)
    (h ha : GoValue → HandlerResult)
    (hp : (h v).raised = none) (hpa : (ha v).raised = none) :
    runChainFrom i (typedOps h Ts ++ [DispatchOp.catchAnyOp ha])
        (some { err := some v, handled := false })
      = { invoked := [(i + firstMatchIx v Ts, v)],
          events := (opHandler (if firstMatchIx v Ts < Ts.length
            then DispatchOp.catchOp (GoAssertType.concrete v.rtype) h
            else DispatchOp.catchAnyOp ha) v).events,
          escape := none,
          block := some { err := some v, handled := true } } := by
  induction Ts generalizing i with
  | nil =>
    have hm : opMatches v (DispatchOp.catchAnyOp ha) = true := by simp [opMatches]
    have hrr : (opHandler (DispatchOp.catchAnyOp ha) v).raised = none := by
      simpa [opHandler] using hpa
    have hstep := applyOp_match_ret (DispatchOp.catchAnyOp ha) v hm hrr
    simp [typedOps, runChainFrom, hstep, firstMatchIx, opHandler]
  | cons T Ts ih =>
    by_cases ht : typeAssert v T = true
    · have hm : opMatches v (DispatchOp.catchOp T h) = true := by simp [opMatches, ht]
      have hrr : (opHandler (DispatchOp.catchOp T h) v).raised = none := by
        simpa [opHandler] using hp
      have hstep := applyOp_match_ret (DispatchOp.catchOp T h) v hm hrr
      have hpass := runChainFrom_pass (typedOps h Ts ++ [DispatchOp.catchAnyOp ha]) (i + 1)
        { err := some v, handled := true } (Or.inr rfl)
      simp only [typedOps] at hpass
      simp [typedOps, runChainFrom, hstep, hpass, firstMatchIx, ht, opHandler]
    · have ht2 : typeAssert v T = false := by
        cases htv : typeAssert v T
        · rfl
        · exact absurd htv ht
      have hm : opMatches v (DispatchOp.catchOp T h) = false := by simp [opMatches, ht2]
      have hstep := applyOp_nomatch (DispatchOp.catchOp T h) v hm
      have harith : i + 1 + firstMatchIx v Ts = i + (firstMatchIx v Ts + 1) := by omega
      have hlt : (firstMatchIx v Ts + 1 < Ts.length + 1) ↔ (firstMatchIx v Ts < Ts.length) := by
        omega
      have ih2 := ih (i + 1)
      simp only [typedOps] at ih2
      simp [typedOps, runChainFrom, hstep, ih2, firstMatchIx, ht2, harith, hlt]

/- ### The claims -/

/-- Claim C1, counterexample: the claim demands that `Catch[T]` fire only
when the exact runtime type of the payload equals `T`, with no interface
widening.  The code uses a Go type assertion, which widens to interfaces:
catching with the `error` interface fires on a `*strconv.NumError`
payload (as `demo3` relies on) although the interface type is not the
payload's exact runtime type. -/
theorem c1_counterexample :
    typeAssert vNum (GoAssertType.iface InterfaceType.errorI) = true
    ∧ GoAssertType.iface InterfaceType.errorI ≠ GoAssertType.concrete vNum.rtype
    ∧ (Catch (GoAssertType.iface InterfaceType.errorI)
        (some { err := some vNum, handled := false }) nilRetHandler).invoked = [vNum]
    ∧ (Catch (GoAssertType.iface InterfaceType.errorI)
        (some { err := some vNum, handled := false }) nilRetHandler).block
        = some { err := some vNum, handled := true } := by
  exact ⟨rfl, by decide, rfl, rfl⟩

/-- Claim C1, amended: for every block and non-raising handler of target
type `T`, `Catch[T]` invokes the handler (and sets `handled`) if and only
if the block is unhandled with a captured payload whose Go type assertion
against `T` succeeds — exact runtime-type equality for a concrete `T`,
method-set satisfaction for an interface `T`; in every other case
(already handled, clean, or assertion failure) no handler is invoked and
the block is returned unchanged. -/
theorem c1_theorem (T : GoAssertType) (b : TryBlock) (h : GoValue → HandlerResult)
    (hp : ∀ u, (h u).raised = none) :
    ((Catch T (some b) h).invoked ≠ []
        ↔ ∃ v, b.err = some v ∧ b.handled = false ∧ typeAssert v T = true)
    ∧ (∀ v, b.err = some v → b.handled = false → typeAssert v T = true →
        Catch T (some b) h
          = { invoked := [v], events := (h v).events, escape := none,
              block := some { err := some v, handled := true } })
    ∧ (∀ v, b.err = some v → b.handled = false → typeAssert v T = false →
        Catch T (some b) h = { invoked := [], events := [], escape := none, block := some b })
    ∧ (b.handled = true →
        Catch T (some b) h = { invoked := [], events := [], escape := none, block := some b })
    ∧ (b.err = none →
        Catch T (some b) h = { invoked := [], events := [], escape := none, block := some b }) := by
  obtain ⟨e, hd⟩ := b
  refine ⟨?_, ?_, ?_, ?_, ?_⟩
  · cases e with
    | none =>
      cases hd with
      | false =>
        rw [Catch_clean T h { err := none, handled := false } rfl]
        simp
      | true =>
        rw [Catch_handled T h { err := none, handled := true } rfl]
        simp
    | some v =>
      cases hd with
      | false =>
        by_cases ht : typeAssert v T = true
        · rw [Catch_match_ret T h v ht (hp v)]
          simp [ht]
        · have ht2 : typeAssert v T = false := by
            cases htv : typeAssert v T
            · rfl
            · exact absurd htv ht
          rw [Catch_nomatch T h v ht2]
          simp [ht2]
      | true =>
        rw [Catch_handled T h { err := some v, handled := true } rfl]
        simp
  · intro v hv hdd ht
    cases hv
    cases hdd
    exact Catch_match_ret T h v ht (hp v)
  · intro v hv hdd ht
    cases hv
    cases hdd
    exact Catch_nomatch T h v ht
  · intro hdd
    cases hdd
    exact Catch_handled T h _ rfl
  · intro hv
    cases hv
    exact Catch_clean T h _ rfl

/-- Witness for C1's amended theorem at a concrete input: a `string`
payload caught with target type `string`. -/
theorem c1_witness :
    Catch (GoAssertType.concrete ConcreteType.stringT)
        (some { err := some vStr, handled := false }) nilRetHandler
      = { invoked := [vStr], events := [], escape := none,
          block := some { err := some vStr, handled := true } } := by
  have hmain := c1_theorem (GoAssertType.concrete ConcreteType.stringT)
    { err := some vStr, handled := false } nilRetHandler (fun u => rfl)
  have hres := hmain.2.1 vStr rfl rfl (by decide)
  simpa [nilRetHandler] using hres

/-- Claim C2, counterexample: with payload a `*strconv.NumError` and the
chain `catch[error]; catchAny`, the claim (first stage whose declared
type exactly equals the runtime type, else `catchAny`) predicts that the
`catchAny` stage at index 1 fires; in the code the `catch[error]` stage
at index 0 fires, by interface widening of the type assertion. -/
theorem c2_counterexample :
    (runChain (typedOps nilRetHandler [GoAssertType.iface InterfaceType.errorI]
        ++ [DispatchOp.catchAnyOp nilRetHandler])
        (some { err := some vNum, handled := false })).invoked = [(0, vNum)]
    ∧ (runChain (typedOps nilRetHandler [GoAssertType.iface InterfaceType.errorI]
        ++ [DispatchOp.catchAnyOp nilRetHandler])
        (some { err := some vNum, handled := false })).invoked ≠ [(1, vNum)]
    ∧ GoAssertType.iface InterfaceType.errorI ≠ GoAssertType.concrete vNum.rtype := by
  exact ⟨rfl, by decide, by decide⟩

/-- Claim C2, amended: for every payload `v` raised inside `try` and
every chain `catch[T1], …, catch[Tn], catchAny`, exactly one handler
fires — the first stage in call order whose declared type matches `v`
under Go's type assertion (exact equality for concrete types, interface
satisfaction for interfaces), or the `catchAny` stage (index `n`) if no
typed stage matches; all other stages are no-ops and the block ends
handled. -/
theorem c2_theorem (Ts : List GoAssertType) (v : GoValue) (h ha : GoValue → HandlerResult)
    (hp : (h v).raised = none) (hpa : (ha v).raised = none) :
    (runChain (typedOps h Ts ++ [DispatchOp.catchAnyOp ha])
        (some { err := some v, handled := false })).invoked = [(firstMatchIx v Ts, v)]
    ∧ (runChain (typedOps h Ts ++ [DispatchOp.catchAnyOp ha])
        (some { err := some v, handled := false })).escape = none
    ∧ (runChain (typedOps h Ts ++ [DispatchOp.catchAnyOp ha])
        (some { err := some v, handled := false })).block
        = some { err := some v, handled := true }
    ∧ (firstMatchIx v Ts < Ts.length →
        ∃ l T r, Ts = l ++ T :: r ∧ l.length = firstMatchIx v Ts
          ∧ typeAssert v T = true ∧ ∀ U ∈ l, typeAssert v U = false)
    ∧ (firstMatchIx v Ts = Ts.length ↔ ∀ U ∈ Ts, typeAssert v U = false)
    ∧ firstMatchIx v Ts ≤ Ts.length := by
  have hrun := typedChain_run Ts 0 v h ha hp hpa
  refine ⟨?_, ?_, ?_, firstMatchIx_lt_spec v Ts, firstMatchIx_eq_length v Ts,
    firstMatchIx_le v Ts⟩
  · rw [runChain, hrun]
    simp
  · rw [runChain, hrun]
  · rw [runChain, hrun]

/-- Witness for C2's amended theorem: a `ValidationError` payload against
the chain `catch[DatabaseError]; catch[ValidationError]; catchAny` — the
second stage (index 1) fires. -/
theorem c2_witness :
    (runChain (typedOps nilRetHandler
        [GoAssertType.concrete ConcreteType.databaseErrorT,
         GoAssertType.concrete ConcreteType.validationErrorT]
        ++ [DispatchOp.catchAnyOp nilRetHandler])
        (some { err := some vVal, handled := false })).invoked = [(1, vVal)] := by
  have hmain := c2_theorem
    [GoAssertType.concrete ConcreteType.databaseErrorT,
     GoAssertType.concrete ConcreteType.validationErrorT]
    vVal nilRetHandler nilRetHandler rfl rfl
  simpa [firstMatchIx, typeAssert, vVal, implementsIface] using hmain.1

/-- Claim C3: `Finally` runs the cleanup exactly once, unconditionally —
also on a nil block, where no re-raise follows; after the cleanup, a
still-unhandled payload is re-raised unchanged (same value, same type,
capturable by an enclosing `Try`), while a handled or clean block causes
no propagation; in the observable trace the cleanup always completes
before the re-raise. -/
theorem c3_theorem (cleanup : List Event) (b : TryBlock) (v : GoValue) :
    ((Finally none cleanup).events = cleanup ∧ (Finally none cleanup).escape = none)
    ∧ (Finally (some b) cleanup).events = cleanup
    ∧ (b.err = some v → b.handled = false →
        (Finally (some b) cleanup).escape = some v
        ∧ (Finally (some b) cleanup).trace = cleanup ++ [Event.raiseEv v]
        ∧ Try (resumeComp (Finally (some b) cleanup).trace (Finally (some b) cleanup).escape)
            = { err := some v, handled := false })
    ∧ (b.handled = true → (Finally (some b) cleanup).escape = none)
    ∧ (b.err = none → (Finally (some b) cleanup).escape = none) := by
  obtain ⟨e, hd⟩ := b
  refine ⟨⟨rfl, rfl⟩, ?_, ?_, ?_, ?_⟩
  · cases e <;> cases hd <;> rfl
  · intro hv hdd
    cases hv
    cases hdd
    exact ⟨rfl, rfl, rfl⟩
  · intro hdd
    cases hdd
    cases e <;> rfl
  · intro hv
    cases hv
    cases hd <;> rfl

/-- Witness for C3 at a concrete input: an unhandled `ValidationError`
block re-raises after the cleanup event. -/
theorem c3_witness :
    (Finally (some { err := some vVal, handled := false }) [Event.mark 9]).trace
      = [Event.mark 9, Event.raiseEv vVal] := by
  have hmain := c3_theorem [Event.mark 9] { err := some vVal, handled := false } vVal
  have hres := (hmain.2.2.1 rfl rfl).2.1
  simpa using hres

/-- Claim C4: a payload raised inside `try` is never discarded — for
every following dispatch chain, either exactly one handler receives the
payload, or no handler was invoked, the chain returns normally and
`Finally` re-raises the identical value (same value, same type) for an
enclosing capture or a fatal termination. -/
theorem c4_theorem (fn : Comp) (v : GoValue) (ops : List DispatchOp) (cleanup : List Event)
    (hv : fn.raised = some v) :
    (Try fn).err = some v ∧ (Try fn).handled = false
    ∧ ((∃ j, (runChain ops (some (Try fn))).invoked = [(j, v)])
       ∨ ((runChain ops (some (Try fn))).invoked = []
          ∧ (runChain ops (some (Try fn))).escape = none
          ∧ (Finally (runChain ops (some (Try fn))).block cleanup).escape = some v)) := by
  have hTry : Try fn = { err := some v, handled := false } := by
    simp [Try, hv]
  refine ⟨by simp [Try, hv], rfl, ?_⟩
  rw [hTry]
  rcases runChainFrom_unhandled ops 0 v with ⟨j, hj, _⟩ | ⟨h1, h2, h3, _⟩
  · exact Or.inl ⟨j, hj⟩
  · refine Or.inr ⟨h1, h2, ?_⟩
    rw [runChain, h3]
    rfl

/-- Witness for C4 at a concrete input: a thrown `ValidationError` with
an empty dispatch chain is re-raised unchanged by `Finally`. -/
theorem c4_witness :
    (Finally (runChain [] (some (Try (Throw vVal)))).block []).escape = some vVal := by
  have hmain := c4_theorem (Throw vVal) vVal [] [] rfl
  rcases hmain.2.2 with ⟨j, hj⟩ | ⟨h1, h2, h3⟩
  · simp [runChain, runChainFrom] at hj
  · exact h3

/-- Claim C5: dispatch is idempotent — on a block already in the handled
state, `Catch`, `CatchWithReturn` and `CatchAny` invoke no handler, emit
nothing, let nothing escape and return the block unchanged. -/
theorem c5_theorem (T : GoAssertType) (b : TryBlock) (h : GoValue → HandlerResult)
    (hb : b.handled = true) :
    Catch T (some b) h = { invoked := [], events := [], escape := none, block := some b }
    ∧ CatchWithReturn T (some b) h
        = { result := none, invoked := [], events := [], escape := none, block := some b }
    ∧ CatchAny (some b) h
        = { invoked := [], events := [], escape := none, block := some b } := by
  exact ⟨Catch_handled T h b hb, CatchWithReturn_handled T h b hb, CatchAny_handled h b hb⟩

/-- Witness for C5 at a concrete input: a handled block holding a string
payload passes through all three dispatch operations unchanged. -/
theorem c5_witness :
    Catch (GoAssertType.concrete ConcreteType.stringT)
        (some { err := some vStr, handled := true }) nilRetHandler
      = { invoked := [], events := [], escape := none,
          block := some { err := some vStr, handled := true } } := by
  exact (c5_theorem (GoAssertType.concrete ConcreteType.stringT)
    { err := some vStr, handled := true } nilRetHandler rfl).1

/-- Claim C6: a computation that completes without raising yields a clean
block (`err` nil, `handled` false); no stage of any following dispatch
chain invokes its handler and the block passes through unchanged; and
`Finally` still runs its cleanup exactly once with no re-raise. -/
theorem c6_theorem (fn : Comp) (ops : List DispatchOp) (cleanup : List Event)
    (hv : fn.raised = none) :
    Try fn = { err := none, handled := false }
    ∧ runChain ops (some (Try fn))
        = { invoked := [], events := [], escape := none, block := some (Try fn) }
    ∧ (Finally (some (Try fn)) cleanup).events = cleanup
    ∧ (Finally (some (Try fn)) cleanup).escape = none := by
  have hTry : Try fn = { err := none, handled := false } := by
    simp [Try, hv]
  refine ⟨hTry, ?_, ?_, ?_⟩
  · rw [hTry, runChain]
    exact runChainFrom_pass ops 0 _ (Or.inl rfl)
  · rw [hTry]
    rfl
  · rw [hTry]
    rfl

/-- Witness for C6 at a concrete input: a non-raising computation with a
one-stage chain and a one-event cleanup. -/
theorem c6_witness :
    runChain [DispatchOp.catchAnyOp nilRetHandler]
        (some (Try { events := [Event.mark 4], raised := none }))
      = { invoked := [], events := [], escape := none,
          block := some { err := none, handled := false } } := by
  have hmain := c6_theorem { events := [Event.mark 4], raised := none }
    [DispatchOp.catchAnyOp nilRetHandler] [] rfl
  rw [hmain.2.1, hmain.1]

/-- Claim C7: `CatchWithReturn` returns the handler's produced value
exactly on a typed match (and the nil sentinel in every other case), and
its handler invocations, events, escapes and resulting block coincide
with those of `Catch` run with the same target type and the same handler
on the same input block. -/
theorem c7_theorem (T : GoAssertType) (tb : Option TryBlock) (h : GoValue → HandlerResult) :
    ((CatchWithReturn T tb h).invoked = (Catch T tb h).invoked
      ∧ (CatchWithReturn T tb h).events = (Catch T tb h).events
      ∧ (CatchWithReturn T tb h).escape = (Catch T tb h).escape
      ∧ (CatchWithReturn T tb h).block = (Catch T tb h).block)
    ∧ (∀ b v, tb = some b → b.err = some v → b.handled = false → typeAssert v T = true →
        (h v).raised = none → (CatchWithReturn T tb h).result = (h v).ret)
    ∧ (∀ b v, tb = some b → b.err = some v → b.handled = false → typeAssert v T = false →
        (CatchWithReturn T tb h).result = none)
    ∧ (∀ b, tb = some b → b.handled = true → (CatchWithReturn T tb h).result = none)
    ∧ (∀ b, tb = some b → b.err = none → (CatchWithReturn T tb h).result = none)
    ∧ (tb = none → (CatchWithReturn T tb h).result = none) := by
  refine ⟨?_, ?_, ?_, ?_, ?_, ?_⟩
  · cases tb with
    | none => exact ⟨rfl, rfl, rfl, rfl⟩
    | some b =>
      obtain ⟨e, hd⟩ := b
      cases e with
      | none =>
        cases hd with
        | false =>
          rw [Catch_clean T h { err := none, handled := false } rfl,
            CatchWithReturn_clean T h { err := none, handled := false } rfl]
          exact ⟨rfl, rfl, rfl, rfl⟩
        | true =>
          rw [Catch_handled T h { err := none, handled := true } rfl,
            CatchWithReturn_handled T h { err := none, handled := true } rfl]
          exact ⟨rfl, rfl, rfl, rfl⟩
      | some v =>
        cases hd with
        | false =>
          by_cases ht : typeAssert v T = true
          · cases hr : (h v).raised with
            | none =>
              rw [Catch_match_ret T h v ht hr, CatchWithReturn_match_ret T h v ht hr]
              exact ⟨rfl, rfl, rfl, rfl⟩
            | some w =>
              rw [Catch_match_raise T h v w ht hr, CatchWithReturn_match_raise T h v w ht hr]
              exact ⟨rfl, rfl, rfl, rfl⟩
          · have ht2 : typeAssert v T = false := by
              cases htv : typeAssert v T
              · rfl
              · exact absurd htv ht
            rw [Catch_nomatch T h v ht2, CatchWithReturn_nomatch T h v ht2]
            exact ⟨rfl, rfl, rfl, rfl⟩
        | true =>
          rw [Catch_handled T h { err := some v, handled := true } rfl,
            CatchWithReturn_handled T h { err := some v, handled := true } rfl]
          exact ⟨rfl, rfl, rfl, rfl⟩
  · intro b v htb hv hdd ht hr
    cases htb
    have hb : b = { err := some v, handled := false } := by
      obtain ⟨e, hd⟩ := b
      simp_all
    rw [hb, CatchWithReturn_match_ret T h v ht hr]
  · intro b v htb hv hdd ht
    cases htb
    have hb : b = { err := some v, handled := false } := by
      obtain ⟨e, hd⟩ := b
      simp_all
    rw [hb, CatchWithReturn_nomatch T h v ht]
  · intro b htb hdd
    cases htb
    rw [CatchWithReturn_handled T h b hdd]
  · intro b htb hv
    cases htb
    rw [CatchWithReturn_clean T h b hv]
  · intro htb
    cases htb
    rfl

/-- Witness for C7 at a concrete input: a matching `CatchWithReturn`
passes through the handler's return value. -/
theorem c7_witness :
    (CatchWithReturn (GoAssertType.concrete ConcreteType.validationErrorT)
        (some { err := some vVal, handled := false }) (pureHandler 5 (some vStr))).result
      = some vStr := by
  have hmain := c7_theorem (GoAssertType.concrete ConcreteType.validationErrorT)
    (some { err := some vVal, handled := false }) (pureHandler 5 (some vStr))
  have hres := hmain.2.1 { err := some vVal, handled := false } vVal rfl rfl rfl (by decide) rfl
  simpa [pureHandler] using hres

/-- Claim C8: the `TryBlock` invariant is preserved by every dispatch
sequence — `Try` always produces `handled = false`, the captured payload
is never modified by the chain, `handled` is never reset, at most one
handler invocation occurs, none at all on an already-handled block, and
a handled block always still carries its payload. -/
theorem c8_theorem (ops : List DispatchOp) (b : TryBlock)
    (hinv : b.handled = true → b.err ≠ none) :
    (∀ fn, (Try fn).handled = false)
    ∧ ∃ b2, (runChain ops (some b)).block = some b2
        ∧ b2.err = b.err
        ∧ (b.handled = true → b2.handled = true)
        ∧ (b2.handled = true → b2.err ≠ none)
        ∧ (runChain ops (some b)).invoked.length ≤ 1
        ∧ (b.handled = true → (runChain ops (some b)).invoked = []) := by
  refine ⟨fun fn => rfl, ?_⟩
  obtain ⟨e, hd⟩ := b
  cases hd with
  | true =>
    have hpass := runChainFrom_pass ops 0 { err := e, handled := true } (Or.inr rfl)
    rw [runChain, hpass]
    exact ⟨{ err := e, handled := true }, rfl, rfl, fun _ => rfl,
      fun _ => hinv rfl, by simp, fun _ => rfl⟩
  | false =>
    cases e with
    | none =>
      have hpass := runChainFrom_pass ops 0 { err := none, handled := false } (Or.inl rfl)
      rw [runChain, hpass]
      exact ⟨{ err := none, handled := false }, rfl, rfl, fun hc => hc,
        fun hc => absurd hc (by simp), by simp, fun hc => absurd hc (by simp)⟩
    | some v =>
      rcases runChainFrom_unhandled ops 0 v with ⟨j, hj, hb | hb⟩ | ⟨h1, h2, h3, _⟩
      · rw [runChain, hb, hj]
        exact ⟨{ err := some v, handled := false }, rfl, rfl, fun hc => absurd hc (by simp),
          fun hc => absurd hc (by simp), by simp, fun hc => absurd hc (by simp)⟩
      · rw [runChain, hb, hj]
        exact ⟨{ err := some v, handled := true }, rfl, rfl, fun _ => rfl,
          fun _ => by simp, by simp, fun hc => absurd hc (by simp)⟩
      · rw [runChain, h1, h3]
        exact ⟨{ err := some v, handled := false }, rfl, rfl, fun hc => absurd hc (by simp),
          fun hc => absurd hc (by simp), by simp, fun _ => rfl⟩

/-- Witness for C8 at a concrete input: an unhandled string block pushed
through a matching one-stage chain makes at most one invocation. -/
theorem c8_witness :
    (runChain [DispatchOp.catchOp (GoAssertType.concrete ConcreteType.stringT) nilRetHandler]
        (some { err := some vStr, handled := false })).invoked.length ≤ 1 := by
  have hmain := c8_theorem
    [DispatchOp.catchOp (GoAssertType.concrete ConcreteType.stringT) nilRetHandler]
    { err := some vStr, handled := false } (by simp)
  obtain ⟨b2, _, _, _, _, hlen, _⟩ := hmain.2
  exact hlen

/-- Claim C9: if the handler invoked by `Catch`, `CatchWithReturn` or
`CatchAny` itself raises a payload `w`, the raise escapes the dispatch
call, and the block keeps its original captured payload with `handled`
still false — the flag is only set after the handler returns normally. -/
theorem c9_theorem (T : GoAssertType) (b : TryBlock) (v w : GoValue)
    (h : GoValue → HandlerResult) (hv : b.err = some v) (hdd : b.handled = false)
    (ht : typeAssert v T = true) (hr : (h v).raised = some w) :
    Catch T (some b) h
      = { invoked := [v], events := (h v).events, escape := some w,
          block := some { err := some v, handled := false } }
    ∧ CatchWithReturn T (some b) h
      = { result := none, invoked := [v], events := (h v).events, escape := some w,
          block := some { err := some v, handled := false } }
    ∧ CatchAny (some b) h
      = { invoked := [v], events := (h v).events, escape := some w,
          block := some { err := some v, handled := false } } := by
  have hb : b = { err := some v, handled := false } := by
    obtain ⟨e, hd⟩ := b
    simp_all
  rw [hb]
  exact ⟨Catch_match_raise T h v w ht hr, CatchWithReturn_match_raise T h v w ht hr,
    CatchAny_match_raise h v w hr⟩

/-- Witness for C9 at a concrete input: a handler that panics with a new
payload while handling a string payload. -/
theorem c9_witness :
    Catch (GoAssertType.concrete ConcreteType.stringT)
        (some { err := some vStr, handled := false }) (raisingHandler 2 vNum)
      = { invoked := [vStr], events := [Event.mark 2], escape := some vNum,
          block := some { err := some vStr, handled := false } } := by
  have hmain := c9_theorem (GoAssertType.concrete ConcreteType.stringT)
    { err := some vStr, handled := false } vStr vNum (raisingHandler 2 vNum)
    rfl rfl (by decide) rfl
  simpa [raisingHandler] using hmain.1

/-- Claim C10: the nil sentinel of `CatchWithReturn` coincides with the
nil a handler may itself return — on a matching invocation whose handler
returns nil, the result equals the sentinel although the handler ran and
the block became handled, while a mismatching invocation yields the same
result with no invocation; so the result alone does not determine whether
a match occurred. -/
theorem c10_theorem :
    typeAssert vStr (GoAssertType.concrete ConcreteType.stringT) = true
    ∧ (CatchWithReturn (GoAssertType.concrete ConcreteType.stringT)
        (some { err := some vStr, handled := false }) nilRetHandler).result = none
    ∧ (CatchWithReturn (GoAssertType.concrete ConcreteType.stringT)
        (some { err := some vStr, handled := false }) nilRetHandler).invoked = [vStr]
    ∧ (CatchWithReturn (GoAssertType.concrete ConcreteType.stringT)
        (some { err := some vStr, handled := false }) nilRetHandler).block
        = some { err := some vStr, handled := true }
    ∧ (CatchWithReturn (GoAssertType.concrete ConcreteType.intT)
        (some { err := some vStr, handled := false }) nilRetHandler).result = none
    ∧ (CatchWithReturn (GoAssertType.concrete ConcreteType.intT)
        (some { err := some vStr, handled := false }) nilRetHandler).invoked = [] := by
  exact ⟨rfl, rfl, rfl, rfl, rfl, rfl⟩

end GoTryCatch
